import Mathlib

/-!
Verification development for the geotutor-ai deliberation engine.

Shallow embedding of the Python sources:
  - `src/tools/calculator.py`   (safe_calculate, process_calculations)
  - `src/agents/consensus.py`   (ConsensusManager: stage1/2/3, parse_ranking)
  - `src/graph.py`              (router_node and the request state machine)
  - `brain_api/main.py`         (request-boundary error conversion)

Modelling conventions:
  - Outbound LLM calls are oracles `String → Except String String`: `.ok t`
    is a returned text, `.error e` a raised exception with message `e`.
  - Python dicts that are built by insertion and never rebound are modelled
    as association lists in insertion order (Python 3.7+ dicts preserve
    insertion order, and `consensus.py` iterates them in that order).
  - Thread-pool completion order (`as_completed`) is abstracted: stage 1
    takes its per-participant outcomes as a list in completion order;
    stage 2 processes reviewers in registry order (no settled claim
    depends on the order of the rankings list, only on its contents).
  - Character classes of the Python regexes are transcribed exactly,
    including the three mojibake characters U+00E2, U+2020, U+2019 that
    appear in the source where an arrow was intended; `\s` and `\w` are
    modelled at ASCII width, which covers every input below.
-/

namespace GeoTutor

/-! ## Basic string machinery (Python `in`, `strip`, `lower`, `upper`) -/

/-- Does `n` occur at the head of `hay`? (character-exact) -/
def leadsWith : List Char → List Char → Bool
  | [], _ => true
  | _ :: _, [] => false
  | a :: as, b :: bs => a = b && leadsWith as bs

/-- Does `needle` occur anywhere in `hay`? Models Python `needle in hay`. -/
def occursIn (needle : List Char) : List Char → Bool
  | [] => needle.isEmpty
  | c :: tl => leadsWith needle (c :: tl) || occursIn needle tl

/-- Python `needle in hay` on strings. -/
def strContains (hay needle : String) : Bool :=
  occursIn needle.toList hay.toList

/-- Python `\s` at ASCII width: space, tab, newline, CR, VT, FF. -/
def isPySpace (c : Char) : Bool :=
  c = ' ' || c = '\t' || c = '\n' || c = '\r' || c = '\x0b' || c = '\x0c'

/-- Python `str.strip()` on a character list (ASCII whitespace). -/
def pyStripL (l : List Char) : List Char :=
  ((l.dropWhile isPySpace).reverse.dropWhile isPySpace).reverse

/-- Python `str.strip()`. -/
def pyStrip (s : String) : String :=
  String.mk (pyStripL s.toList)

/-- Python `str.lower()` (ASCII letters; no input below uses cased non-ASCII). -/
def pyLower (s : String) : String :=
  String.mk (s.toList.map Char.toLower)

/-- Case-insensitive literal match at the head of `cs`; returns the rest. -/
def matchLitCI : List Char → List Char → Option (List Char)
  | [], cs => some cs
  | _ :: _, [] => none
  | a :: as, b :: bs => if a.toLower = b.toLower then matchLitCI as bs else none

/-- Case-insensitive containment, used for the calculator's blocklist. -/
def strContainsCI (hay needle : String) : Bool :=
  occursIn (pyLower needle).toList (pyLower hay).toList

theorem leadsWith_append (n rest : List Char) : leadsWith n (n ++ rest) = true := by
  induction n with
  | nil => rfl
  | cons a as ih => simp [leadsWith, ih]

theorem occursIn_append_left (n rest : List Char) : occursIn n (n ++ rest) = true := by
  cases h : n ++ rest with
  | nil =>
    rcases List.append_eq_nil.mp h with ⟨h1, _⟩
    subst h1; rfl
  | cons c tl =>
    rw [occursIn, ← h, leadsWith_append, Bool.true_or]

/-! ## Calculator (`src/tools/calculator.py`)

`safe_calculate` strips the expression, rejects it when any blocklisted
pattern occurs, and otherwise hands it to Python `eval` in a namespace of
arithmetic functions.  The embedding models `eval` by an exact tokenizer
and recursive-descent parser for Python arithmetic expressions (numbers,
identifiers, calls, `+ - * / // % **`, parentheses, commas) and an
evaluator over exact rationals.  Abstractions, none of which any theorem
below relies on: Python's float rounding is replaced by exact rational
arithmetic; calls whose mathematical value is irrational (trigonometric,
exponential, logarithmic functions, `sqrt`, the constants `pi`/`e`) and
numpy values are outside the rational model and evaluate to an error
value; exception texts interpolated into `[CALC_ERROR: ...]` markers are
replaced by fixed strings.  The syntactic layer — which expressions parse
and, crucially, which raise `SyntaxError` — is exact. -/

/-- One numeric value of the evaluator: exact rational plus Python's
int-versus-float distinction (`flt = true` means the Python value would be
a `float`). -/
structure PyNum where
  q : ℚ
  flt : Bool
deriving DecidableEq

/-- Tokens of a Python arithmetic expression. -/
inductive CTok where
  | num (q : ℚ) (flt : Bool)
  | ident (s : String)
  | sym (s : String)
deriving DecidableEq

/-- Digits of a numeral. -/
def digitVal (c : Char) : ℕ := c.toNat - '0'.toNat

def isDigitCh (c : Char) : Bool := '0' ≤ c && c ≤ '9'

def isIdentStart (c : Char) : Bool :=
  ('a' ≤ c && c ≤ 'z') || ('A' ≤ c && c ≤ 'Z') || c = '_'

def isIdentCh (c : Char) : Bool := isIdentStart c || isDigitCh c

/-- Accumulate a run of digits into a natural number. -/
def readDigits (acc : ℕ) : List Char → ℕ × List Char
  | [] => (acc, [])
  | c :: cs =>
    if isDigitCh c then readDigits (acc * 10 + digitVal c) cs else (acc, c :: cs)

/-- Length of the leading digit run (for the fractional scale). -/
def digitRunLen : List Char → ℕ
  | [] => 0
  | c :: cs => if isDigitCh c then digitRunLen cs + 1 else 0

/-- Tokenize one numeral starting with a digit: `123`, `123.`, `123.45`. -/
def readNumber (cs : List Char) : CTok × List Char :=
  let (ip, r1) := readDigits 0 cs
  match r1 with
  | '.' :: r2 =>
    let n := digitRunLen r2
    let (fp, r3) := readDigits 0 r2
    (CTok.num ((ip : ℚ) + (fp : ℚ) / ((10 : ℚ) ^ n)) true, r3)
  | _ => (CTok.num (ip : ℚ) false, r1)

/-- Tokenizer; `none` models a Python `SyntaxError` from lexing. -/
def calcLex : ℕ → List Char → Option (List CTok)
  | 0, _ => none
  | _ + 1, [] => some []
  | fuel + 1, c :: cs =>
    if isPySpace c then calcLex fuel cs
    else if isDigitCh c then
      let (t, rest) := readNumber (c :: cs)
      (calcLex fuel rest).map (t :: ·)
    else if c = '.' then
      match cs with
      | d :: _ =>
        if isDigitCh d then
          let n := digitRunLen cs
          let (fp, rest) := readDigits 0 cs
          (calcLex fuel rest).map (CTok.num ((fp : ℚ) / ((10 : ℚ) ^ n)) true :: ·)
        else none
      | [] => none
    else if isIdentStart c then
      let run := (c :: cs).takeWhile isIdentCh
      let rest := (c :: cs).dropWhile isIdentCh
      (calcLex fuel rest).map (CTok.ident (String.mk run) :: ·)
    else if c = '*' then
      match cs with
      | '*' :: rest => (calcLex fuel rest).map (CTok.sym "**" :: ·)
      | _ => (calcLex fuel cs).map (CTok.sym "*" :: ·)
    else if c = '/' then
      match cs with
      | '/' :: rest => (calcLex fuel rest).map (CTok.sym "//" :: ·)
      | _ => (calcLex fuel cs).map (CTok.sym "/" :: ·)
    else if c = '+' || c = '-' || c = '%' || c = '(' || c = ')' || c = ',' then
      (calcLex fuel cs).map (CTok.sym (String.mk [c]) :: ·)
    else none

mutual

/-- Python arithmetic expressions (the sublanguage reachable through the
calculator's namespace). -/
inductive CExpr where
  | lit (q : ℚ) (flt : Bool)
  | name (s : String)
  | call (f : String) (args : CArgs)
  | neg (a : CExpr)
  | pos (a : CExpr)
  | bin (op : String) (a b : CExpr)
deriving DecidableEq

/-- Argument lists of a call. -/
inductive CArgs where
  | nil
  | cons (hd : CExpr) (tl : CArgs)
deriving DecidableEq

end

mutual

/-- Additive level: `term (('+'|'-') term)*`. -/
def pAdd : ℕ → List CTok → Option (CExpr × List CTok)
  | 0, _ => none
  | fuel + 1, ts =>
    match pMul fuel ts with
    | none => none
    | some (a, rest) => pAddLoop fuel a rest

def pAddLoop : ℕ → CExpr → List CTok → Option (CExpr × List CTok)
  | 0, _, _ => none
  | fuel + 1, a, ts =>
    match ts with
    | CTok.sym "+" :: rest =>
      match pMul fuel rest with
      | none => none
      | some (b, rest2) => pAddLoop fuel (CExpr.bin "+" a b) rest2
    | CTok.sym "-" :: rest =>
      match pMul fuel rest with
      | none => none
      | some (b, rest2) => pAddLoop fuel (CExpr.bin "-" a b) rest2
    | _ => some (a, ts)

/-- Multiplicative level: `unary (('*'|'/'|'//'|'%') unary)*`. -/
def pMul : ℕ → List CTok → Option (CExpr × List CTok)
  | 0, _ => none
  | fuel + 1, ts =>
    match pUnary fuel ts with
    | none => none
    | some (a, rest) => pMulLoop fuel a rest

def pMulLoop : ℕ → CExpr → List CTok → Option (CExpr × List CTok)
  | 0, _, _ => none
  | fuel + 1, a, ts =>
    match ts with
    | CTok.sym "*" :: rest =>
      match pUnary fuel rest with
      | none => none
      | some (b, rest2) => pMulLoop fuel (CExpr.bin "*" a b) rest2
    | CTok.sym "/" :: rest =>
      match pUnary fuel rest with
      | none => none
      | some (b, rest2) => pMulLoop fuel (CExpr.bin "/" a b) rest2
    | CTok.sym "//" :: rest =>
      match pUnary fuel rest with
      | none => none
      | some (b, rest2) => pMulLoop fuel (CExpr.bin "//" a b) rest2
    | CTok.sym "%" :: rest =>
      match pUnary fuel rest with
      | none => none
      | some (b, rest2) => pMulLoop fuel (CExpr.bin "%" a b) rest2
    | _ => some (a, ts)

/-- Unary level: `('+'|'-')* power`. -/
def pUnary : ℕ → List CTok → Option (CExpr × List CTok)
  | 0, _ => none
  | fuel + 1, ts =>
    match ts with
    | CTok.sym "-" :: rest =>
      match pUnary fuel rest with
      | none => none
      | some (a, rest2) => some (CExpr.neg a, rest2)
    | CTok.sym "+" :: rest =>
      match pUnary fuel rest with
      | none => none
      | some (a, rest2) => some (CExpr.pos a, rest2)
    | _ => pPow fuel ts

/-- Power level (right associative): `atom ('**' unary)?`. -/
def pPow : ℕ → List CTok → Option (CExpr × List CTok)
  | 0, _ => none
  | fuel + 1, ts =>
    match pAtomC fuel ts with
    | none => none
    | some (a, rest) =>
      match rest with
      | CTok.sym "**" :: rest2 =>
        match pUnary fuel rest2 with
        | none => none
        | some (b, rest3) => some (CExpr.bin "**" a b, rest3)
      | _ => some (a, rest)

/-- Atoms: numeral, name, call, parenthesized expression. -/
def pAtomC : ℕ → List CTok → Option (CExpr × List CTok)
  | 0, _ => none
  | fuel + 1, ts =>
    match ts with
    | CTok.num q f :: rest => some (CExpr.lit q f, rest)
    | CTok.ident s :: CTok.sym "(" :: CTok.sym ")" :: rest =>
      some (CExpr.call s CArgs.nil, rest)
    | CTok.ident s :: CTok.sym "(" :: rest =>
      match pArgList fuel rest with
      | none => none
      | some (args, CTok.sym ")" :: rest2) => some (CExpr.call s args, rest2)
      | some _ => none
    | CTok.ident s :: rest => some (CExpr.name s, rest)
    | CTok.sym "(" :: rest =>
      match pAdd fuel rest with
      | none => none
      | some (a, CTok.sym ")" :: rest2) => some (a, rest2)
      | some _ => none
    | _ => none

/-- Non-empty argument list: `expr (',' expr)*`. -/
def pArgList : ℕ → List CTok → Option (CArgs × List CTok)
  | 0, _ => none
  | fuel + 1, ts =>
    match pAdd fuel ts with
    | none => none
    | some (a, CTok.sym "," :: rest) =>
      match pArgList fuel rest with
      | none => none
      | some (args, rest2) => some (CArgs.cons a args, rest2)
    | some (a, rest) => some (CArgs.cons a CArgs.nil, rest)

end

/-- Parse a whole expression; `none` models a Python `SyntaxError`. -/
def parseCalcExpr (s : String) : Option CExpr :=
  match calcLex (s.toList.length + 1) s.toList with
  | none => none
  | some ts =>
    match pAdd (10 * ts.length + 10) ts with
    | some (a, []) => some a
    | _ => none

/-- Python `round` with banker's rounding (round half to even). -/
def pyRound (x : ℚ) : ℤ :=
  let f := ⌊x⌋
  let r := x - (f : ℚ)
  if r < 1/2 then f
  else if r > 1/2 then f + 1
  else if f % 2 = 0 then f else f + 1

/-- Binary operators on exact rationals. -/
def evalBin (op : String) (a b : PyNum) : Except String PyNum :=
  if op = "+" then Except.ok ⟨a.q + b.q, a.flt || b.flt⟩
  else if op = "-" then Except.ok ⟨a.q - b.q, a.flt || b.flt⟩
  else if op = "*" then Except.ok ⟨a.q * b.q, a.flt || b.flt⟩
  else if op = "/" then
    if b.q = 0 then Except.error "Division by zero"
    else Except.ok ⟨a.q / b.q, true⟩
  else if op = "//" then
    if b.q = 0 then Except.error "Division by zero"
    else Except.ok ⟨(⌊a.q / b.q⌋ : ℚ), a.flt || b.flt⟩
  else if op = "%" then
    if b.q = 0 then Except.error "Division by zero"
    else Except.ok ⟨a.q - (⌊a.q / b.q⌋ : ℚ) * b.q, a.flt || b.flt⟩
  else if op = "**" then
    if b.q.den = 1 then
      if 0 ≤ b.q.num then Except.ok ⟨a.q ^ b.q.num.toNat, a.flt || b.flt⟩
      else if a.q = 0 then Except.error "Division by zero"
      else Except.ok ⟨(a.q ^ (-b.q.num).toNat)⁻¹, true⟩
    else Except.error "irrational or non-numeric value outside the rational model"
  else Except.error "invalid operator"

/-- Calls through the calculator's namespace.  Functions whose value is
irrational in general are outside the rational model. -/
def evalCall (f : String) (vs : List PyNum) : Except String PyNum :=
  if f = "abs" then
    match vs with
    | [a] => Except.ok ⟨|a.q|, a.flt⟩
    | _ => Except.error "invalid arguments"
  else if f = "round" then
    match vs with
    | [a] => Except.ok ⟨(pyRound a.q : ℚ), false⟩
    | _ => Except.error "invalid arguments"
  else if f = "min" then
    match vs with
    | a :: rest => Except.ok (rest.foldl (fun x y => if y.q < x.q then y else x) a)
    | _ => Except.error "invalid arguments"
  else if f = "max" then
    match vs with
    | a :: rest => Except.ok (rest.foldl (fun x y => if x.q < y.q then y else x) a)
    | _ => Except.error "invalid arguments"
  else if f = "pow" then
    match vs with
    | [a, b] => evalBin "**" a b
    | _ => Except.error "invalid arguments"
  else if f = "sum" then
    Except.error "irrational or non-numeric value outside the rational model"
  else if f = "sin" || f = "cos" || f = "tan" || f = "asin" || f = "acos" ||
          f = "atan" || f = "atan2" || f = "sinh" || f = "cosh" || f = "tanh" ||
          f = "sqrt" || f = "exp" || f = "log" || f = "log10" || f = "log2" ||
          f = "radians" || f = "degrees" || f = "array" then
    Except.error "irrational or non-numeric value outside the rational model"
  else Except.error ("name " ++ f ++ " is not defined")

mutual

/-- Evaluate an expression; `.error` models a raised Python exception, or a
value outside the rational model (documented in the section header). -/
def evalCE : CExpr → Except String PyNum
  | CExpr.lit q f => Except.ok ⟨q, f⟩
  | CExpr.name s =>
    if s = "pi" || s = "e" || s = "np" then
      Except.error "irrational or non-numeric value outside the rational model"
    else Except.error ("name " ++ s ++ " is not defined")
  | CExpr.neg a =>
    match evalCE a with
    | Except.error m => Except.error m
    | Except.ok v => Except.ok ⟨-v.q, v.flt⟩
  | CExpr.pos a => evalCE a
  | CExpr.bin op a b =>
    match evalCE a with
    | Except.error m => Except.error m
    | Except.ok va =>
      match evalCE b with
      | Except.error m => Except.error m
      | Except.ok vb => evalBin op va vb
  | CExpr.call f args =>
    match evalCAs args with
    | Except.error m => Except.error m
    | Except.ok vs => evalCall f vs

/-- Evaluate an argument list left to right. -/
def evalCAs : CArgs → Except String (List PyNum)
  | CArgs.nil => Except.ok []
  | CArgs.cons a rest =>
    match evalCE a with
    | Except.error m => Except.error m
    | Except.ok v =>
      match evalCAs rest with
      | Except.error m => Except.error m
      | Except.ok vs => Except.ok (v :: vs)

end

/-- Decimal rendering of a rational with 4 fractional digits (models
Python's fixed-point .4f format; the binary-float rounding step is
abstracted). -/
def renderFix4 (x : ℚ) : String :=
  let sgn := if x < 0 then "-" else ""
  let y := |x|
  let scaled := pyRound (y * 10000)
  let ip := scaled / 10000
  let fp := (scaled % 10000).toNat
  let fs := toString fp
  let pad := String.mk (List.replicate (4 - fs.length) '0')
  sgn ++ toString ip ++ "." ++ pad ++ fs

/-- Scientific rendering (models Python's .4e format loosely; never
exercised by a theorem). -/
def renderSci (x : ℚ) : String :=
  renderFix4 x

/-- Render a value the way `safe_calculate` formats its result: ints via
`str`, floats via the two format branches. -/
def renderVal (v : PyNum) : String :=
  if v.flt then
    if |v.q| < 1/100 || |v.q| > 10000 then renderSci v.q else renderFix4 v.q
  else toString v.q.num

/-- Does `class` / `def` followed by a whitespace character occur
(case-insensitively)?  Models the `class\s` / `def\s` blocklist entries. -/
def hasLitThenSpaceCI (lit : String) : List Char → Bool
  | [] => false
  | c :: cs =>
    (match matchLitCI lit.toList (c :: cs) with
     | some (d :: _) => isPySpace d
     | _ => false) || hasLitThenSpaceCI lit cs

/-- The blocklist of `safe_calculate` (each checked case-insensitively). -/
def hasDangerous (e : String) : Bool :=
  strContainsCI e "__" || strContainsCI e "import" || strContainsCI e "exec" ||
  strContainsCI e "eval" || strContainsCI e "open" || strContainsCI e "os." ||
  strContainsCI e "sys." || strContainsCI e "subprocess" ||
  strContainsCI e "lambda" ||
  hasLitThenSpaceCI "class" e.toList || hasLitThenSpaceCI "def" e.toList

/-- `safe_calculate` from `src/tools/calculator.py`.  The Python code
interpolates the exception text into the marker; the model uses the fixed
texts produced by `parseCalcExpr` / `evalCE`. -/
def safe_calculate (expression : String) : String :=
  let e := pyStrip expression
  if hasDangerous e then "[CALC_ERROR: Unsafe expression detected]"
  else
    match parseCalcExpr e with
    | none => "[CALC_ERROR: invalid syntax]"
    | some ast =>
      match evalCE ast with
      | Except.error m => "[CALC_ERROR: " ++ m ++ "]"
      | Except.ok v => renderVal v

/-- Match `CALCULATE\(([^)]+)\)` (IGNORECASE) at the head of `cs`:
the literal, then a non-empty run of non-`)` characters, then `)`.
Returns the captured group and the rest of the text. -/
def matchCalcAt (cs : List Char) : Option (List Char × List Char) :=
  match matchLitCI "CALCULATE(".toList cs with
  | none => none
  | some r1 =>
    let expr := r1.takeWhile (fun c => ¬ c = ')')
    let r2 := r1.dropWhile (fun c => ¬ c = ')')
    if expr.isEmpty then none
    else
      match r2 with
      | ')' :: rest => some (expr, rest)
      | _ => none

/-- Left-to-right non-overlapping substitution pass of `re.sub`. -/
def pcScan : ℕ → List Char → List Char
  | 0, cs => cs
  | _ + 1, [] => []
  | fuel + 1, c :: cs =>
    match matchCalcAt (c :: cs) with
    | some (expr, rest) => (safe_calculate (String.mk expr)).toList ++ pcScan fuel rest
    | none => c :: pcScan fuel cs

/-- `process_calculations` from `src/tools/calculator.py`: replace every
`CALCULATE(...)` occurrence by `safe_calculate` of the captured group. -/
def process_calculations (text : String) : String :=
  String.mk (pcScan text.toList.length text.toList)

/-! ## Rank extraction (`ConsensusManager.parse_ranking`)

The six regex patterns of `parse_ranking` are transcribed one scanning
function each.  Patterns 1-5 carry `re.IGNORECASE`; pattern 6 does not.
The source's character classes contain, besides `> - ,` and `\s`, three
mojibake characters (the UTF-8 bytes of an arrow decoded as cp1252):
U+00E2, U+2020, U+2019 — written below via `Char.ofNat`.  Under
IGNORECASE, U+00E2 also matches its uppercase form U+00C2. -/

/-- U+00E2, the first mojibake character of the source's arrow. -/
def mojiA : Char := Char.ofNat 0xE2

/-- U+00C2, the uppercase of U+00E2 (matched under IGNORECASE). -/
def mojiAU : Char := Char.ofNat 0xC2

/-- U+2020 (dagger), the second mojibake character. -/
def mojiB : Char := Char.ofNat 0x2020

/-- U+2019 (right single quotation mark), the third mojibake character. -/
def mojiC : Char := Char.ofNat 0x2019

/-- `[A-E]` without IGNORECASE. -/
def isLabU (c : Char) : Bool := 'A' ≤ c && c ≤ 'E'

/-- `[A-E]` under IGNORECASE. -/
def isLabCI (c : Char) : Bool := isLabU c || ('a' ≤ c && c ≤ 'e')

/-- The class `[\s\>\-â†’,A-E]` of pattern 1, under IGNORECASE. -/
def isDelimP1 (c : Char) : Bool :=
  isPySpace c || c = '>' || c = '-' || c = mojiA || c = mojiAU ||
  c = mojiB || c = mojiC || c = ',' || isLabCI c

/-- The class `[\>\-â†’,\s]` of the `re.split` call (no IGNORECASE). -/
def isSplitDelim (c : Char) : Bool :=
  c = '>' || c = '-' || c = mojiA || c = mojiB || c = mojiC || c = ',' ||
  isPySpace c

/-- The class `[\>\-â†’,]` of pattern 5, under IGNORECASE. -/
def isD3CI (c : Char) : Bool :=
  c = '>' || c = '-' || c = mojiA || c = mojiAU || c = mojiB || c = mojiC ||
  c = ','

/-- Python `\w` at ASCII width. -/
def isWordCh (c : Char) : Bool :=
  ('a' ≤ c && c ≤ 'z') || ('A' ≤ c && c ≤ 'Z') || isDigitCh c || c = '_'

mutual

/-- `re.split` piece collection: accumulate the current piece. -/
def pySplitGo (p : Char → Bool) (cur : List Char) : List Char → List (List Char)
  | [] => [cur.reverse]
  | c :: cs =>
    if p c then cur.reverse :: pySplitSkip p cs else pySplitGo p (c :: cur) cs

/-- `re.split` delimiter-run skipping (the pattern carries `+`). -/
def pySplitSkip (p : Char → Bool) : List Char → List (List Char)
  | [] => [[]]
  | c :: cs => if p c then pySplitSkip p cs else pySplitGo p [c] cs

end

/-- `re.split(r"[\>\-â†’,\s]+", s)`: pieces between delimiter runs,
including empty edge pieces exactly as `re.split` produces them. -/
def pySplit (p : Char → Bool) (cs : List Char) : List (List Char) :=
  pySplitGo p [] cs

/-- `t.strip().upper() in valid_labels` filter of pattern 1's tokens. -/
def cleanTok (t : List Char) : Option String :=
  let u := (pyStripL t).map Char.toUpper
  if u = ['A'] || u = ['B'] || u = ['C'] || u = ['D'] || u = ['E'] then
    some (String.mk u)
  else none

/-- Pattern 1 match attempt at the head of `cs`:
`FINAL\s*RANKING[:\s]*([A-E][\s\>\-â†’,A-E]+)`; returns group 1. -/
def p1At (cs : List Char) : Option (List Char) :=
  match matchLitCI "FINAL".toList cs with
  | none => none
  | some r1 =>
    match matchLitCI "RANKING".toList (r1.dropWhile isPySpace) with
    | none => none
    | some r2 =>
      match r2.dropWhile (fun c => c = ':' || isPySpace c) with
      | [] => none
      | c :: r3 =>
        if isLabCI c then
          let run := r3.takeWhile isDelimP1
          if run.isEmpty then none else some (c :: run)
        else none

/-- `re.search` for pattern 1: first position with a match. -/
def p1Search : List Char → Option (List Char)
  | [] => none
  | c :: cs =>
    match p1At (c :: cs) with
    | some g => some g
    | none => p1Search cs

/-- Consume at most two `*` (the `\*?\*?` of patterns 2 and 3). -/
def dropStars2 : List Char → List Char
  | '*' :: '*' :: cs => cs
  | '*' :: cs => cs
  | cs => cs

/-- Pattern 2 match attempt: `[1-5][\.\)\:]\s*\*?\*?([A-E])\*?\*?`.
Returns the captured label and the rest after the trailing stars. -/
def p2At (cs : List Char) : Option (Char × List Char) :=
  match cs with
  | d :: p :: r1 =>
    if ('1' ≤ d && d ≤ '5') && (p = '.' || p = ')' || p = ':') then
      match dropStars2 (r1.dropWhile isPySpace) with
      | l :: r2 => if isLabCI l then some (l, dropStars2 r2) else none
      | [] => none
    else none
  | _ => none

/-- `re.findall` loop for pattern 2 (non-overlapping, left to right). -/
def p2All : ℕ → List Char → List Char
  | 0, _ => []
  | _ + 1, [] => []
  | fuel + 1, c :: cs =>
    match p2At (c :: cs) with
    | some (l, rest) => l :: p2All fuel rest
    | none => p2All fuel cs

/-- The ordinal keywords of pattern 3, in the source's alternation order. -/
def ordKeys : List String :=
  ["best", "first", "1st", "second", "2nd", "third", "3rd", "worst", "last"]

/-- First alternation branch matching at the head (case-insensitive). -/
def matchAnyLit : List String → List Char → Option (List Char)
  | [], _ => none
  | lit :: rest, cs =>
    match matchLitCI lit.toList cs with
    | some r => some r
    | none => matchAnyLit rest cs

/-- Pattern 3 match attempt:
`(?:best|first|1st|second|2nd|third|3rd|worst|last)[:\s]+\*?\*?([A-E])\*?\*?`. -/
def p3At (cs : List Char) : Option (Char × List Char) :=
  match matchAnyLit ordKeys cs with
  | none => none
  | some r1 =>
    match r1 with
    | c1 :: _ =>
      if c1 = ':' || isPySpace c1 then
        match dropStars2 (r1.dropWhile (fun c => c = ':' || isPySpace c)) with
        | l :: r2 => if isLabCI l then some (l, dropStars2 r2) else none
        | [] => none
      else none
    | [] => none

/-- `re.findall` loop for pattern 3. -/
def p3All : ℕ → List Char → List Char
  | 0, _ => []
  | _ + 1, [] => []
  | fuel + 1, c :: cs =>
    match p3At (c :: cs) with
    | some (l, rest) => l :: p3All fuel rest
    | none => p3All fuel cs

/-- Pattern 4 match attempt: `Solution\s+([A-E])`. -/
def p4At (cs : List Char) : Option (Char × List Char) :=
  match matchLitCI "Solution".toList cs with
  | none => none
  | some r1 =>
    match r1 with
    | c1 :: _ =>
      if isPySpace c1 then
        match r1.dropWhile isPySpace with
        | l :: r2 => if isLabCI l then some (l, r2) else none
        | [] => none
      else none
    | [] => none

/-- `re.findall` loop for pattern 4. -/
def p4All : ℕ → List Char → List Char
  | 0, _ => []
  | _ + 1, [] => []
  | fuel + 1, c :: cs =>
    match p4At (c :: cs) with
    | some (l, rest) => l :: p4All fuel rest
    | none => p4All fuel cs

/-- Pattern 5 match attempt at one position:
`([A-E])\s*[\>\-â†’,]\s*([A-E])(?:\s*[\>\-â†’,]\s*([A-E]))?`; the optional
third group is taken greedily and dropped whole if it cannot complete. -/
def p5At (cs : List Char) : Option (List Char) :=
  match cs with
  | c1 :: r1 =>
    if isLabCI c1 then
      match r1.dropWhile isPySpace with
      | d :: r3 =>
        if isD3CI d then
          match r3.dropWhile isPySpace with
          | c2 :: r5 =>
            if isLabCI c2 then
              match r5.dropWhile isPySpace with
              | d2 :: r7 =>
                if isD3CI d2 then
                  match r7.dropWhile isPySpace with
                  | c3 :: _ => if isLabCI c3 then some [c1, c2, c3] else some [c1, c2]
                  | [] => some [c1, c2]
                else some [c1, c2]
              | [] => some [c1, c2]
            else none
          | [] => none
        else none
      | [] => none
    else none
  | [] => none

/-- `re.search` for pattern 5. -/
def p5Search : List Char → Option (List Char)
  | [] => none
  | c :: cs =>
    match p5At (c :: cs) with
    | some g => some g
    | none => p5Search cs

/-- Pattern 6 condition: ranking vocabulary in the lowercased text. -/
def p6Cond (text : String) : Bool :=
  strContains (pyLower text) "rank" || strContains (pyLower text) "best" ||
  strContains (pyLower text) "order"

/-- `re.findall(r"\b([A-E])\b", text)` (no IGNORECASE): standalone
uppercase labels, tracked with a previous-character word flag. -/
def p6All (prevWord : Bool) : List Char → List Char
  | [] => []
  | c :: cs =>
    let nextOk := match cs with
      | [] => true
      | d :: _ => ¬ isWordCh d
    if isLabU c && ¬ prevWord && nextOk then c :: p6All (isWordCh c) cs
    else p6All (isWordCh c) cs

/-- Deduplicate while preserving first-seen order (pattern 6 epilogue). -/
def dedupKeep (seen : List Char) : List Char → List Char
  | [] => []
  | c :: cs => if c ∈ seen then dedupKeep seen cs else c :: dedupKeep (c :: seen) cs

/-- Uppercase a captured label and keep it when valid (the
`t.upper() in valid_labels` filters of patterns 2-6). -/
def upButValid (c : Char) : Option String :=
  if isLabU c.toUpper then some (String.mk [c.toUpper]) else none

/-- Pattern 6 of `parse_ranking`. -/
def parseRank6 (cs : List Char) (text : String) : List String :=
  if p6Cond text then
    let toks := (dedupKeep [] (p6All false cs)).filterMap upButValid
    if toks.isEmpty then [] else toks
  else []

/-- Patterns 5 and 6 of `parse_ranking` (tried when 1-4 yield nothing). -/
def parseRank56 (cs : List Char) (text : String) : List String :=
  match p5Search cs with
  | some g =>
    let toks := g.filterMap upButValid
    if toks.isEmpty then parseRank6 cs text else toks
  | none => parseRank6 cs text

/-- Patterns 3 and 4. -/
def parseRank34 (cs : List Char) (text : String) : List String :=
  let ord := (p3All cs.length cs).filterMap upButValid
  if ¬ ord.isEmpty then ord
  else
    let sol := (p4All cs.length cs).filterMap upButValid
    if ¬ sol.isEmpty then sol
    else parseRank56 cs text

/-- Pattern 2, then the rest of the chain. -/
def parseRank2 (cs : List Char) (text : String) : List String :=
  let numbered := (p2All cs.length cs).filterMap upButValid
  if ¬ numbered.isEmpty then numbered else parseRank34 cs text

/-- `ConsensusManager.parse_ranking`: the six extraction patterns tried in
priority order; the first with at least one valid label wins, and no match
yields `[]` (the source's `try/except` can only return `[]`, which a total
model needs no case for). -/
def parse_ranking (text : String) : List String :=
  let cs := text.toList
  match p1Search cs with
  | some g =>
    let toks := (pySplit isSplitDelim g).filterMap cleanTok
    if ¬ toks.isEmpty then toks else parseRank2 cs text
  | none => parseRank2 cs text

/-! ## Deliberation stages (`src/agents/consensus.py`)

The three stages of `ConsensusManager`.  LLM calls are oracles; progress
events (`_emit`) are pure logging and are not modelled; the prompt texts
of stages 1 and 2 are absorbed into the oracles (every participant
receives the same prompt, so an oracle keyed by participant name captures
exactly the information flow).  Stage 3's chair prompt is transcribed
verbatim because the winning draft is spliced into it. -/

/-- One council entry of `COUNCIL_MEMBERS` (the credential is omitted). -/
structure Member where
  name : String
  family : String
  model : String
deriving DecidableEq

/-- `COUNCIL_MEMBERS`: the fixed three-participant registry. -/
def COUNCIL_MEMBERS : List Member :=
  [⟨"Member_DeepSeek", "deepseek", "deepseek-chat"⟩,
   ⟨"Member_GPT", "gpt", "gpt-4o"⟩,
   ⟨"Member_Mistral", "mistral", "mistral-large-latest"⟩]

/-- The registry's names, in registry order. -/
def councilNames : List String := COUNCIL_MEMBERS.map Member.name

/-- Association-list lookup in insertion order (Python dict lookup on a
dict built by insertion of distinct keys). -/
def alookup (a : String) : List (String × α) → Option α
  | [] => none
  | (k, v) :: rest => if k = a then some v else alookup a rest

/-- The value a participant's entry gets in the Stage-1 `responses` dict:
the post-processed text on success, the text Error-colon-space followed
by the exception text on a raise. -/
def stage1Entry : Except String String → String
  | Except.ok t => process_calculations t
  | Except.error e => "Error: " ++ e

/-- `ConsensusManager.stage1_collect_responses`: one generation call per
participant; `outcomes` lists the per-participant results in
`as_completed` (completion) order — the order in which the `responses`
dict acquires its keys. -/
def stage1_collect_responses (outcomes : List (String × Except String String)) :
    List (String × String) :=
  outcomes.map (fun p => (p.1, stage1Entry p.2))

/-- One Stage-2 ranking record with the reviewer, raw_text and
parsed_order fields of the source's dict. -/
structure Ranking where
  reviewer : String
  rawText : String
  parsedOrder : List String
deriving DecidableEq

/-- Result of Stage 2: the rankings list, the Label Map (label →
participant, in discovery order) and the reviewers actually invited
(empty when the stage returns early). -/
structure Stage2Result where
  rankings : List Ranking
  labelMap : List (String × String)
  reviewerCalls : List String
deriving DecidableEq

/-- The `labels` list of stage 2. -/
def anonLabels : List String := ["A", "B", "C", "D", "E"]

/-- `ConsensusManager.stage2_collect_rankings`.  `rv` is the reviewer
oracle (keyed by reviewer name; all reviewers receive the same prompt).
The Label Map pairs `labels[i]` with the i-th member whose response does
not contain `"Error"`; with the fixed three-member registry at most three
drafts survive, so the source's `labels[i]` indexing (which would raise
beyond five) is modelled by `zip`.  A reviewer whose call raises
contributes no ranking. -/
def stage2_collect_rankings (rv : String → Except String String)
    (responses : List (String × String)) : Stage2Result :=
  let validMembers :=
    (responses.filter (fun p => ! strContains p.2 "Error")).map Prod.fst
  let labelMap := anonLabels.zip validMembers
  if labelMap.isEmpty then ⟨[], [], []⟩
  else
    ⟨COUNCIL_MEMBERS.filterMap (fun m =>
        match rv m.name with
        | Except.ok res => some ⟨m.name, res, parse_ranking res⟩
        | Except.error _ => none),
     labelMap,
     COUNCIL_MEMBERS.map Member.name⟩

/-! ### Stage-3 aggregation -/

/-- Update every score entry of one label (`scores[label] += points`,
guarded by `if label in scores`; entries with other keys are unchanged). -/
def bumpScore : List (String × ℤ) → String → ℤ → List (String × ℤ)
  | [], _, _ => []
  | (k, v) :: rest, lbl, pts =>
    (if k = lbl then (k, v + pts) else (k, v)) :: bumpScore rest lbl pts

/-- The inner loop `for i, label in enumerate(order)` with
`points = max(0, 3 - i)`, starting at index `i`. -/
def applyRankingFrom (sc : List (String × ℤ)) : ℕ → List String → List (String × ℤ)
  | _, [] => sc
  | i, lbl :: rest => applyRankingFrom (bumpScore sc lbl (max 0 (3 - (i : ℤ)))) (i + 1) rest

/-- Score accumulation for one parsed order. -/
def applyRanking (sc : List (String × ℤ)) (order : List String) : List (String × ℤ) :=
  applyRankingFrom sc 0 order

/-- The Score Table: every Label-Map label starts at 0, then all parsed
orders are folded in. -/
def computeScores (labels : List String) (orders : List (List String)) :
    List (String × ℤ) :=
  orders.foldl applyRanking (labels.map (fun l => (l, (0 : ℤ))))

/-- Python `max(scores, key=scores.get)` on a dict in insertion order:
fold keeping the current entry unless a later one is strictly greater. -/
def pyStep (best q : String × ℤ) : String × ℤ :=
  if q.2 > best.2 then q else best

/-- The winning entry (`None` on an empty table, as in the source). -/
def pyMaxBy : List (String × ℤ) → Option (String × ℤ)
  | [] => none
  | p :: rest => some (rest.foldl pyStep p)

/-- `str(x)` for the optional winner label (`None` prints as `"None"`). -/
def optLabelStr : Option String → String
  | none => "None"
  | some s => s

/-- The chair prompt f-string of stage 3, transcribed verbatim (including
the 8-space indentation of the source's triple-quoted literal). -/
def chairPromptText (query : String) (winnerLabel : Option String)
    (bestSolution : String) (rankings : List Ranking) : String :=
  "You are the Chair of the Council.\n" ++
  "        The Council has debated and selected Solution " ++
  optLabelStr winnerLabel ++ " as the best.\n" ++
  "        \n" ++
  "        User Query: " ++ query ++ "\n" ++
  "        \n" ++
  "        Winning Solution (" ++ optLabelStr winnerLabel ++ "):\n" ++
  "        " ++ bestSolution ++ "\n" ++
  "        \n" ++
  "        Peer Comments:\n" ++
  "        " ++
  String.intercalate "\n"
    (rankings.map (fun r => r.reviewer ++ ": " ++
      String.mk (r.rawText.toList.take 200) ++ "...")) ++ "\n" ++
  "        \n" ++
  "        Task:\n" ++
  "        Synthesize the FINAL, definitive answer. \n" ++
  "        Correct any minor issues noted by peers if necessary.\n" ++
  "        Format cleanly as a final report.\n" ++
  "        "

/-- The full observable state of one Stage-3 run. -/
structure Stage3Result where
  scores : List (String × ℤ)
  winnerLabel : Option String
  winnerMember : String
  bestSolution : String
  chairPrompt : String
  chairCalls : ℕ
  result : Except String String

/-- `ConsensusManager.stage3_synthesize_final`: aggregate, pick the
winner, build the chair prompt and issue the single chair call.  The
source contains no branch around the chair call — `chairCalls` is 1 on
every path, including the empty-Label-Map path. -/
def stage3_synthesize_final (chair : String → Except String String)
    (query : String) (responses : List (String × String))
    (rankings : List Ranking) (labelMap : List (String × String)) :
    Stage3Result :=
  let scores := computeScores (labelMap.map Prod.fst) (rankings.map Ranking.parsedOrder)
  let winnerLabel := (pyMaxBy scores).map Prod.fst
  let winnerMember := ((winnerLabel.bind (fun l => alookup l labelMap)).getD "Unknown")
  let bestSolution := (alookup winnerMember responses).getD ""
  let prompt := chairPromptText query winnerLabel bestSolution rankings
  ⟨scores, winnerLabel, winnerMember, bestSolution, prompt, 1, chair prompt⟩

/-! ## Request state machine (`src/graph.py`) and request boundary
(`brain_api/main.py`)

The LangGraph workflow has nodes librarian → router → (consensus → critic
| exam), each visited at most once.  `router_node` is a pure function of
the query (it performs no outbound call, which the embedding makes
structural: it takes no oracle).  The consensus node chains the three
stages; the only exception that can escape it in this model is the
Stage-3 chair failure (stage 1/2 absorb per-participant failures), and
`brain_api/main.py` catches it at the endpoint. -/

/-- The value `router_node` stores in `next_step`:
`"exam"` iff the lowercased query contains `"exam"`. -/
def router_node (query : String) : String :=
  if strContains (pyLower query) "exam" then "exam" else "consensus"

/-- The graph's nodes. -/
inductive Node where
  | librarian
  | router
  | consensus
  | exam
  | critic
deriving DecidableEq

/-- The conditional-edge table of `add_conditional_edges` (keyed by
`next_step`; any other key would raise in LangGraph, unreachable since
`router_node` only produces these two). -/
def graphRoute (s : String) : Option Node :=
  if s = "exam" then some Node.exam
  else if s = "consensus" then some Node.consensus
  else none

/-- The edge relation of the compiled workflow; `none` is END. -/
def graphStep (query : String) : Node → Option Node
  | Node.librarian => some Node.router
  | Node.router => graphRoute (router_node query)
  | Node.consensus => some Node.critic
  | Node.exam => none
  | Node.critic => none

/-- Trace of visited nodes from a given node (fuel bounds the walk; the
graph is acyclic with ≤ 4 steps). -/
def traceFrom : ℕ → String → Node → List Node
  | 0, _, _ => []
  | fuel + 1, q, n =>
    n :: (match graphStep q n with
          | none => []
          | some nxt => traceFrom fuel q nxt)

/-- The node sequence one request visits, from the entry point. -/
def runTrace (query : String) : List Node :=
  traceFrom 5 query Node.librarian

/-- The consensus node's answer computation: stage 1, stage 2, stage 3;
the chair call's exception, if any, propagates. -/
def runConsensus (outcomes : List (String × Except String String))
    (rv chair : String → Except String String) (query : String) :
    Except String String :=
  let responses := stage1_collect_responses outcomes
  let s2 := stage2_collect_rankings rv responses
  (stage3_synthesize_final chair query responses s2.rankings s2.labelMap).result

/-- What the graph run delivers to the boundary on success. -/
structure GraphOutcome where
  result : String
  critique : String
deriving DecidableEq

/-- `graph_app.invoke` for one request: retrieve, route, then either the
exam branch (terminates without critic) or consensus followed by critic.
`retrieve`, `critic` and `exam` are the external collaborators; an
escaping exception is the `.error` case. -/
def invokeGraph (outcomes : List (String × Except String String))
    (rv chair : String → Except String String)
    (critic : String → String → String) (exam : String → String → String)
    (retrieve : String → String) (query : String) :
    Except String GraphOutcome :=
  let context := retrieve query
  if router_node query = "exam" then Except.ok ⟨exam query context, ""⟩
  else
    match runConsensus outcomes rv chair query with
    | Except.error e => Except.error e
    | Except.ok finalAnswer => Except.ok ⟨finalAnswer, critic query finalAnswer⟩

/-- The `/ask` response model (`QuestionResponse`), reduced to the fields
the error-handling claims are about. -/
structure QuestionResponse where
  answer : String
  critique : String
  success : Bool
  error : Option String
deriving DecidableEq

/-- The `/ask` endpoint body: `try: invoke ... except Exception as e:
return QuestionResponse(answer="", critique="", success=False,
error=str(e))`. -/
def ask_question (run : Except String GraphOutcome) : QuestionResponse :=
  match run with
  | Except.ok r => ⟨r.result, r.critique, true, none⟩
  | Except.error e => ⟨"", "", false, some e⟩

/-- The terminal SSE event of `/ask-stream`: a result event, or an error
event when `run_consensus`'s thread recorded an exception. -/
inductive TerminalEvent where
  | resultEv (answer critique : String)
  | errorEv (message : String)
deriving DecidableEq

/-- The streaming worker body (`run_consensus` in `brain_api/main.py`)
reduced to what reaches `result_holder`: the final answer and critique,
or the exception text. -/
def runStreamBody (outcomes : List (String × Except String String))
    (rv chair : String → Except String String)
    (critic : String → String → String) (query : String) :
    Except String (String × String) :=
  match runConsensus outcomes rv chair query with
  | Except.error e => Except.error e
  | Except.ok finalAnswer => Except.ok (finalAnswer, critic query finalAnswer)

/-- The consumer's terminal decision: on the sentinel, emit an error event
iff `result_holder["error"]` is set, else the result event. -/
def streamTerminal (run : Except String (String × String)) : TerminalEvent :=
  match run with
  | Except.ok (a, c) => TerminalEvent.resultEv a c
  | Except.error e => TerminalEvent.errorEv e

/-! ## Lemmas about the Score Table and winner selection -/

/-- Specification-side points: summing `max(0, 3 - i)` over the positions
of `l` in `order`, counting positions from `i`. -/
def specPointsFrom : ℕ → List String → String → ℤ
  | _, [], _ => 0
  | i, x :: rest, l =>
    (if x = l then max 0 (3 - (i : ℤ)) else 0) + specPointsFrom (i + 1) rest l

/-- Total points of a label over a list of parsed orders. -/
def rankPoints (orders : List (List String)) (l : String) : ℤ :=
  (orders.map (fun o => specPointsFrom 0 o l)).sum

theorem alookup_bumpScore (sc : List (String × ℤ)) (lbl l : String) (p : ℤ) :
    alookup l (bumpScore sc lbl p) =
      (alookup l sc).map (fun v => if lbl = l then v + p else v) := by
  induction sc with
  | nil => rfl
  | cons kv rest ih =>
    rcases kv with ⟨k, v⟩
    rw [bumpScore]
    by_cases h1 : k = lbl
    · rw [if_pos h1]
      subst h1
      by_cases h2 : k = l
      · subst h2
        simp [alookup]
      · simp [alookup, h2, ih]
    · rw [if_neg h1]
      by_cases h2 : k = l
      · subst h2
        have h3 : ¬ lbl = k := fun h => h1 h.symm
        simp [alookup, h3]
      · simp [alookup, h2, ih]

theorem alookup_applyRankingFrom (order : List String) :
    ∀ (sc : List (String × ℤ)) (i : ℕ) (l : String),
      alookup l (applyRankingFrom sc i order) =
        (alookup l sc).map (· + specPointsFrom i order l) := by
  induction order with
  | nil =>
    intro sc i l
    cases h : alookup l sc <;> simp [applyRankingFrom, specPointsFrom, h]
  | cons x rest ih =>
    intro sc i l
    rw [applyRankingFrom, ih, alookup_bumpScore]
    cases alookup l sc with
    | none => simp
    | some v =>
      simp [specPointsFrom]
      by_cases h : x = l
      · simp [h]
        ring
      · simp [h]

theorem alookup_foldl_applyRanking (orders : List (List String)) :
    ∀ (sc : List (String × ℤ)) (l : String),
      alookup l (orders.foldl applyRanking sc) =
        (alookup l sc).map (· + rankPoints orders l) := by
  induction orders with
  | nil =>
    intro sc l
    cases h : alookup l sc <;> simp [rankPoints, h]
  | cons o rest ih =>
    intro sc l
    rw [List.foldl_cons, ih, applyRanking, alookup_applyRankingFrom]
    cases alookup l sc with
    | none => simp
    | some v => simp [rankPoints]; ring

theorem alookup_initScores (labels : List String) (l : String) :
    alookup l (labels.map (fun x => (x, (0 : ℤ)))) =
      if l ∈ labels then some 0 else none := by
  induction labels with
  | nil => simp [alookup]
  | cons x rest ih =>
    by_cases h : x = l
    · subst h
      simp [alookup]
    · have h2 : ¬ l = x := fun hh => h hh.symm
      simp [alookup, h, h2, ih]

/-- The Score Table maps every Label-Map label to its total positional
points, and no other label. -/
theorem alookup_computeScores (labels : List String)
    (orders : List (List String)) (l : String) :
    alookup l (computeScores labels orders) =
      if l ∈ labels then some (rankPoints orders l) else none := by
  rw [computeScores, alookup_foldl_applyRanking, alookup_initScores]
  by_cases h : l ∈ labels <;> simp [h]

theorem map_fst_bumpScore (sc : List (String × ℤ)) (lbl : String) (p : ℤ) :
    (bumpScore sc lbl p).map Prod.fst = sc.map Prod.fst := by
  induction sc with
  | nil => rfl
  | cons kv rest ih =>
    rcases kv with ⟨k, v⟩
    rw [bumpScore]
    by_cases h : k = lbl
    · rw [if_pos h]
      simp [ih]
    · rw [if_neg h]
      simp [ih]

theorem map_fst_applyRankingFrom (order : List String) :
    ∀ (sc : List (String × ℤ)) (i : ℕ),
      (applyRankingFrom sc i order).map Prod.fst = sc.map Prod.fst := by
  induction order with
  | nil => intro sc i; rfl
  | cons x rest ih =>
    intro sc i
    rw [applyRankingFrom, ih, map_fst_bumpScore]

theorem map_fst_foldl_applyRanking (orders : List (List String)) :
    ∀ sc : List (String × ℤ),
      (orders.foldl applyRanking sc).map Prod.fst = sc.map Prod.fst := by
  induction orders with
  | nil => intro sc; rfl
  | cons o rest ih =>
    intro sc
    rw [List.foldl_cons, ih, applyRanking, map_fst_applyRankingFrom]

/-- The Score Table's key list is exactly the Label Map's key list. -/
theorem map_fst_computeScores (labels : List String) (orders : List (List String)) :
    (computeScores labels orders).map Prod.fst = labels := by
  rw [computeScores, map_fst_foldl_applyRanking]
  have h : (Prod.fst ∘ fun l : String => (l, (0 : ℤ))) = id := rfl
  rw [List.map_map, h, List.map_id]

/-- First entry attaining the running maximum, computed from the right:
keep the earlier entry unless a later one is strictly greater. -/
def specFirstMax : List (String × ℤ) → Option (String × ℤ)
  | [] => none
  | p :: rest =>
    match specFirstMax rest with
    | none => some p
    | some q => if q.2 > p.2 then some q else some p

theorem specFirstMax_mem {sc : List (String × ℤ)} {p : String × ℤ}
    (h : specFirstMax sc = some p) : p ∈ sc := by
  induction sc with
  | nil => simp [specFirstMax] at h
  | cons a rest ih =>
    rw [specFirstMax] at h
    cases hr : specFirstMax rest with
    | none => rw [hr] at h; simp at h; simp [h]
    | some q =>
      rw [hr] at h
      by_cases hc : q.2 > a.2
      · simp [hc] at h; subst h; exact List.mem_cons_of_mem _ (ih hr)
      · simp [hc] at h; simp [h]

theorem specFirstMax_cons_cons (p q : String × ℤ) (t : List (String × ℤ)) :
    specFirstMax (p :: q :: t) = specFirstMax (pyStep p q :: t) := by
  cases h : specFirstMax t with
  | none =>
    simp [specFirstMax, pyStep, h]
    split_ifs <;> simp_all
  | some m =>
    simp [specFirstMax, pyStep, h]
    split_ifs <;> simp_all <;> omega

theorem foldl_pyStep_eq_specFirstMax :
    ∀ (rest : List (String × ℤ)) (p : String × ℤ),
      specFirstMax (p :: rest) = some (rest.foldl pyStep p) := by
  intro rest
  induction rest with
  | nil => intro p; rfl
  | cons q t ih =>
    intro p
    rw [specFirstMax_cons_cons, List.foldl_cons]
    exact ih (pyStep p q)

theorem pyMaxBy_eq_specFirstMax (p : String × ℤ) (rest : List (String × ℤ)) :
    pyMaxBy (p :: rest) = specFirstMax (p :: rest) := by
  rw [pyMaxBy, foldl_pyStep_eq_specFirstMax]

/-- The winner is the first entry that is maximal: strictly above
everything before it, at least everything after it. -/
theorem specFirstMax_first (pre : List (String × ℤ)) (p : String × ℤ)
    (suf : List (String × ℤ))
    (hpre : ∀ q ∈ pre, q.2 < p.2) (hsuf : ∀ q ∈ suf, q.2 ≤ p.2) :
    specFirstMax (pre ++ p :: suf) = some p := by
  induction pre with
  | nil =>
    simp only [List.nil_append]
    rw [specFirstMax]
    cases h : specFirstMax suf with
    | none => rfl
    | some m =>
      have hm : m.2 ≤ p.2 := hsuf m (specFirstMax_mem h)
      have : ¬ m.2 > p.2 := by omega
      simp [this]
  | cons a pre ih =>
    have ha : a.2 < p.2 := hpre a (List.mem_cons_self a pre)
    have ih2 := ih (fun q hq => hpre q (List.mem_cons_of_mem a hq))
    simp only [List.cons_append]
    rw [specFirstMax, ih2]
    have : p.2 > a.2 := ha
    simp [this]

/-- Membership in keys gives a successful `alookup`. -/
theorem alookup_isSome_of_mem {l : String} {sc : List (String × α)}
    (h : l ∈ sc.map Prod.fst) : ∃ v, alookup l sc = some v := by
  induction sc with
  | nil => simp at h
  | cons kv rest ih =>
    rcases kv with ⟨k, v⟩
    by_cases hk : k = l
    · exact ⟨v, by simp [alookup, hk]⟩
    · rw [List.map_cons] at h
      rcases List.mem_cons.mp h with h3 | h3
      · exact absurd h3.symm hk
      · rcases ih h3 with ⟨w, hw⟩
        exact ⟨w, by simp [alookup, hk, hw]⟩

/-- A successful `alookup` returns one of the stored values. -/
theorem alookup_mem_values {l : String} {sc : List (String × α)} {v : α}
    (h : alookup l sc = some v) : v ∈ sc.map Prod.snd := by
  induction sc with
  | nil => simp [alookup] at h
  | cons kv rest ih =>
    rw [alookup] at h
    by_cases hk : kv.1 = l
    · simp [hk] at h; simp [h]
    · simp [hk] at h; simp [ih h]

/-! ## Further helper lemmas for the claims -/

instance {e a : Type} [DecidableEq e] [DecidableEq a] : DecidableEq (Except e a) :=
  fun x y =>
    match x, y with
    | Except.ok u, Except.ok v =>
      if h : u = v then isTrue (by rw [h]) else isFalse (fun hh => h (Except.ok.inj hh))
    | Except.error u, Except.error v =>
      if h : u = v then isTrue (by rw [h]) else isFalse (fun hh => h (Except.error.inj hh))
    | Except.ok _, Except.error _ => isFalse (fun hh => Except.noConfusion hh)
    | Except.error _, Except.ok _ => isFalse (fun hh => Except.noConfusion hh)

/-- An error Draft Response always contains the marker text `"Error"`. -/
theorem errorEntry_contains (e : String) :
    strContains ("Error: " ++ e) "Error" = true := by
  have h : ("Error: " ++ e).toList = "Error".toList ++ ([':', ' '] ++ e.toList) := by
    have h1 : ("Error: " ++ e).toList = "Error: ".toList ++ e.toList := by
      simp [String.toList, String.data_append]
    rw [h1]
    rfl
  show occursIn "Error".toList ("Error: " ++ e).toList = true
  rw [h]
  exact occursIn_append_left _ _

/-- Looking up a key that is not present fails. -/
theorem alookup_eq_none_of_not_mem {l : String} {sc : List (String × α)}
    (h : l ∉ sc.map Prod.fst) : alookup l sc = none := by
  induction sc with
  | nil => rfl
  | cons kv rest ih =>
    rcases kv with ⟨k, v⟩
    rw [List.map_cons] at h
    have hk : ¬ k = l := fun hh => h (by simp [hh])
    have hr : l ∉ rest.map Prod.fst := fun hh => h (List.mem_cons_of_mem _ hh)
    simp [alookup, hk, ih hr]

theorem pyMaxBy_eq_specFirstMax_ne {sc : List (String × ℤ)} (h : sc ≠ []) :
    pyMaxBy sc = specFirstMax sc := by
  cases sc with
  | nil => exact absurd rfl h
  | cons p rest => exact pyMaxBy_eq_specFirstMax p rest

/-- The winning entry is one of the Score Table's entries. -/
theorem pyMaxBy_mem {sc : List (String × ℤ)} {p : String × ℤ}
    (h : pyMaxBy sc = some p) : p ∈ sc := by
  cases sc with
  | nil => simp [pyMaxBy] at h
  | cons a rest =>
    rw [pyMaxBy_eq_specFirstMax] at h
    exact specFirstMax_mem h

/-- The Stage-1 responses keep exactly the outcome names, in order. -/
theorem map_fst_stage1 (outcomes : List (String × Except String String)) :
    (stage1_collect_responses outcomes).map Prod.fst = outcomes.map Prod.fst := by
  rw [stage1_collect_responses, List.map_map]
  rfl

/-- On a non-empty Label Map, Stage 3 picks a winner label from the Label
Map and resolves it to the participant stored there. -/
theorem stage3_winner_of_ne_nil (chair : String → Except String String)
    (query : String) (responses : List (String × String))
    (rankings : List Ranking) (labelMap : List (String × String))
    (h : labelMap ≠ []) :
    ∃ l m, (stage3_synthesize_final chair query responses rankings labelMap).winnerLabel = some l
      ∧ l ∈ labelMap.map Prod.fst
      ∧ alookup l labelMap = some m
      ∧ (stage3_synthesize_final chair query responses rankings labelMap).winnerMember = m
      ∧ m ∈ labelMap.map Prod.snd := by
  set scores := computeScores (labelMap.map Prod.fst) (rankings.map Ranking.parsedOrder) with hscdef
  have hkeys : scores.map Prod.fst = labelMap.map Prod.fst := map_fst_computeScores _ _
  have hscne : scores ≠ [] := by
    intro hnil
    rw [hnil] at hkeys
    cases hlm : labelMap with
    | nil => exact h hlm
    | cons a rest => rw [hlm] at hkeys; simp at hkeys
  cases hsc : scores with
  | nil => exact absurd hsc hscne
  | cons a rest =>
    have hmax : pyMaxBy scores = some (rest.foldl pyStep a) := by rw [hsc]; rfl
    set p := rest.foldl pyStep a with hpdef
    have hpmem : p ∈ scores := pyMaxBy_mem hmax
    have hpkey : p.1 ∈ labelMap.map Prod.fst := by
      rw [← hkeys]
      exact List.mem_map_of_mem Prod.fst hpmem
    rcases alookup_isSome_of_mem hpkey with ⟨m, hm⟩
    refine ⟨p.1, m, ?_, hpkey, hm, ?_, alookup_mem_values hm⟩
    · show (pyMaxBy scores).map Prod.fst = some p.1
      rw [hmax]
      rfl
    · show ((((pyMaxBy scores).map Prod.fst).bind (fun l => alookup l labelMap)).getD "Unknown") = m
      rw [hmax]
      simp [hm]

/-! ## The claims -/

/-- Claim C3 (code bug): `process_calculations` is specified to replace a
well-formed `CALCULATE(...)` expression by its computed value, but the
regex `CALCULATE\(([^)]+)\)` stops the capture at the first `)`.  On the
module's own example `CALCULATE(tan(radians(30)))` the captured group is
the unbalanced `tan(radians(30` — the full expression parses, the
truncated capture does not — so the output is an error marker followed by
the two stranded parentheses. -/
theorem C3_nested_calculate_bug :
    matchCalcAt "CALCULATE(tan(radians(30)))".toList
      = some ("tan(radians(30".toList, "))".toList)
    ∧ parseCalcExpr "tan(radians(30))" ≠ none
    ∧ parseCalcExpr "tan(radians(30" = none
    ∧ process_calculations "CALCULATE(tan(radians(30)))"
        = "[CALC_ERROR: invalid syntax]))" :=
  ⟨by decide, by decide, by decide, by decide⟩

/-- Claim C6: the rank extractor returns `["A","C","B"]` on
`"FINAL RANKING: A > C > B"`, `["B","A","C"]` on `"1. B 2. A 3. C"`, and
`[]` on text with no ranking-like structure. -/
theorem C6_parse_ranking_examples :
    parse_ranking "FINAL RANKING: A > C > B" = ["A", "C", "B"]
    ∧ parse_ranking "1. B 2. A 3. C" = ["B", "A", "C"]
    ∧ parse_ranking "The weather is nice today." = [] :=
  ⟨by decide, by decide, by decide⟩

/-- Claim C9: the Route step chooses the exam branch exactly when the
lowercased query contains `"exam"`, as a pure function of the query; an
exam-routed request visits librarian, router, exam and terminates without
the critic, while a consensus-routed request proceeds to the critic and
then terminates. -/
theorem C9_routing (query : String) :
    (router_node query = "exam" ↔ strContains (pyLower query) "exam" = true)
    ∧ runTrace query = (if strContains (pyLower query) "exam" = true then
        [Node.librarian, Node.router, Node.exam]
      else [Node.librarian, Node.router, Node.consensus, Node.critic])
    ∧ (Node.critic ∈ runTrace query ↔ strContains (pyLower query) "exam" = false) := by
  by_cases h : strContains (pyLower query) "exam" = true
  · have hr : router_node query = "exam" := by simp [router_node, h]
    refine ⟨⟨fun _ => h, fun _ => hr⟩, ?_, ?_⟩
    · simp [runTrace, traceFrom, graphStep, graphRoute, hr, h]
    · simp [runTrace, traceFrom, graphStep, graphRoute, hr, h]
  · have hr : router_node query = "consensus" := by simp [router_node, h]
    have hb : strContains (pyLower query) "exam" = false := by
      simp at h
      exact h
    refine ⟨⟨fun he => absurd (hr ▸ he) (by decide), fun he => absurd he (by simp [hb])⟩, ?_, ?_⟩
    · simp [runTrace, traceFrom, graphStep, graphRoute, hr, h]
    · simp [runTrace, traceFrom, graphStep, graphRoute, hr, hb]

/-- Claim C8: a raised chair call makes `stage3_synthesize_final`'s result
that very exception; the `/ask` boundary converts it into a structured
failure (success false, the error text set) and the streaming boundary
into a terminal error event — the serving process does not crash (both
boundary functions are total). -/
theorem C8_chair_failure (outcomes : List (String × Except String String))
    (rv : String → Except String String)
    (critic exam : String → String → String) (retrieve : String → String)
    (query msg : String)
    (hq : strContains (pyLower query) "exam" = false) :
    (∀ (q : String) (resp : List (String × String)) (rk : List Ranking)
        (lm : List (String × String)),
        (stage3_synthesize_final (fun _ => Except.error msg) q resp rk lm).result
          = Except.error msg)
    ∧ ask_question (invokeGraph outcomes rv (fun _ => Except.error msg) critic exam retrieve query)
        = ⟨"", "", false, some msg⟩
    ∧ streamTerminal (runStreamBody outcomes rv (fun _ => Except.error msg) critic query)
        = TerminalEvent.errorEv msg := by
  have h3 : ∀ (q : String) (resp : List (String × String)) (rk : List Ranking)
      (lm : List (String × String)),
      (stage3_synthesize_final (fun _ => Except.error msg) q resp rk lm).result
        = Except.error msg := fun _ _ _ _ => rfl
  have hr : router_node query = "consensus" := by simp [router_node, hq]
  refine ⟨h3, ?_, ?_⟩
  · simp [invokeGraph, hr, runConsensus, h3, ask_question]
  · simp [runStreamBody, runConsensus, h3, streamTerminal]

/-- Witness for C8 at a concrete consensus-routed request. -/
theorem C8_witness :
    ask_question (invokeGraph [] (fun _ => Except.ok "")
        (fun _ => Except.error "chair down") (fun _ _ => "") (fun _ _ => "")
        (fun _ => "") "what is soil liquefaction")
      = ⟨"", "", false, some "chair down"⟩ :=
  (C8_chair_failure [] (fun _ => Except.ok "") (fun _ _ => "") (fun _ _ => "")
    (fun _ => "") "what is soil liquefaction" "chair down" (by decide)).2.1

/-- Claim C4: for the configured participants, Stage 1 returns exactly one
Draft Response per participant — the post-processed text when the call
returned, the `"Error: ..."` marker when it raised — and a raising
participant removes no other entry. -/
theorem C4_stage1_total (outcomes : List (String × Except String String))
    (hperm : List.Perm (outcomes.map Prod.fst) councilNames) :
    (stage1_collect_responses outcomes).length = councilNames.length
    ∧ (stage1_collect_responses outcomes).map Prod.fst = outcomes.map Prod.fst
    ∧ (∀ p ∈ outcomes, ∀ t, p.2 = Except.ok t →
        (p.1, process_calculations t) ∈ stage1_collect_responses outcomes)
    ∧ (∀ p ∈ outcomes, ∀ e, p.2 = Except.error e →
        (p.1, "Error: " ++ e) ∈ stage1_collect_responses outcomes) := by
  refine ⟨?_, map_fst_stage1 outcomes, ?_, ?_⟩
  · have hlen := hperm.length_eq
    rw [List.length_map] at hlen
    rw [stage1_collect_responses, List.length_map, hlen]
  · intro p hp t ht
    rw [stage1_collect_responses]
    exact List.mem_map.mpr ⟨p, hp, by rw [ht]; rfl⟩
  · intro p hp e he
    rw [stage1_collect_responses]
    exact List.mem_map.mpr ⟨p, hp, by rw [he]; rfl⟩

/-- Witness for C4: one raising participant among three. -/
theorem C4_witness :
    (stage1_collect_responses
      [("Member_DeepSeek", Except.ok "twenty"),
       ("Member_GPT", Except.error "quota"),
       ("Member_Mistral", Except.ok "thirty")]).length = councilNames.length :=
  (C4_stage1_total
    [("Member_DeepSeek", Except.ok "twenty"),
     ("Member_GPT", Except.error "quota"),
     ("Member_Mistral", Except.ok "thirty")] (by decide)).1

/-- Counterexample to claim C1: with all three Stage-1 drafts errored,
Stage 2 does return `([], {})` without inviting reviewers, but Stage 3
does not skip to a "no consensus" result — its result is exactly the
chair oracle's output (two different chairs give two different results,
so the chair is called), and the source has no chair-skipping branch. -/
theorem C1_counterexample :
    (stage2_collect_rankings (fun _ => Except.ok "FINAL RANKING: A")
        (stage1_collect_responses
          [("Member_DeepSeek", Except.error "boom1"),
           ("Member_GPT", Except.error "boom2"),
           ("Member_Mistral", Except.error "boom3")]))
      = ⟨[], [], []⟩
    ∧ (stage3_synthesize_final (fun _ => Except.ok "CHAIR X") "q"
        (stage1_collect_responses
          [("Member_DeepSeek", Except.error "boom1"),
           ("Member_GPT", Except.error "boom2"),
           ("Member_Mistral", Except.error "boom3")]) [] []).result
      = Except.ok "CHAIR X"
    ∧ (stage3_synthesize_final (fun _ => Except.ok "CHAIR Y") "q"
        (stage1_collect_responses
          [("Member_DeepSeek", Except.error "boom1"),
           ("Member_GPT", Except.error "boom2"),
           ("Member_Mistral", Except.error "boom3")]) [] []).result
      = Except.ok "CHAIR Y"
    ∧ (stage3_synthesize_final (fun _ => Except.ok "CHAIR X") "q"
        (stage1_collect_responses
          [("Member_DeepSeek", Except.error "boom1"),
           ("Member_GPT", Except.error "boom2"),
           ("Member_Mistral", Except.error "boom3")]) [] []).result
      ≠ (stage3_synthesize_final (fun _ => Except.ok "CHAIR Y") "q"
        (stage1_collect_responses
          [("Member_DeepSeek", Except.error "boom1"),
           ("Member_GPT", Except.error "boom2"),
           ("Member_Mistral", Except.error "boom3")]) [] []).result :=
  ⟨by decide, by rfl, by rfl, by decide⟩

/-- Claim C1 as amended: when every Stage-1 call raises,
`stage2_collect_rankings` returns the empty ranking list and empty Label
Map without consulting the reviewer oracle; `stage3_synthesize_final`
then still issues its single chair call — with no winner label, winner
member `"Unknown"` and an empty winning solution — and returns the
chair's output; no "no consensus reached" short circuit exists. -/
theorem C1_amended (outcomes : List (String × Except String String))
    (rv rvOther chair : String → Except String String) (query : String)
    (hperm : List.Perm (outcomes.map Prod.fst) councilNames)
    (herr : ∀ p ∈ outcomes, ∃ e, p.2 = Except.error e) :
    stage2_collect_rankings rv (stage1_collect_responses outcomes) = ⟨[], [], []⟩
    ∧ stage2_collect_rankings rv (stage1_collect_responses outcomes)
        = stage2_collect_rankings rvOther (stage1_collect_responses outcomes)
    ∧ (stage3_synthesize_final chair query (stage1_collect_responses outcomes) [] []).winnerLabel
        = none
    ∧ (stage3_synthesize_final chair query (stage1_collect_responses outcomes) [] []).winnerMember
        = "Unknown"
    ∧ (stage3_synthesize_final chair query (stage1_collect_responses outcomes) [] []).bestSolution
        = ""
    ∧ (stage3_synthesize_final chair query (stage1_collect_responses outcomes) [] []).chairCalls
        = 1
    ∧ (stage3_synthesize_final chair query (stage1_collect_responses outcomes) [] []).result
        = chair ((stage3_synthesize_final chair query (stage1_collect_responses outcomes) [] []).chairPrompt) := by
  have hfil : (stage1_collect_responses outcomes).filter
      (fun p => ! strContains p.2 "Error") = [] := by
    rw [List.filter_eq_nil_iff]
    intro p hp
    rcases List.mem_map.mp hp with ⟨q, hq, rfl⟩
    rcases herr q hq with ⟨e, he⟩
    simp [stage1Entry, he, errorEntry_contains e]
  have hstage2 : ∀ o : String → Except String String,
      stage2_collect_rankings o (stage1_collect_responses outcomes) = ⟨[], [], []⟩ := by
    intro o
    rw [stage2_collect_rankings]
    simp [hfil]
  have hbest : (stage3_synthesize_final chair query (stage1_collect_responses outcomes) [] []).bestSolution = "" := by
    show (alookup "Unknown" (stage1_collect_responses outcomes)).getD "" = ""
    have hnm : "Unknown" ∉ (stage1_collect_responses outcomes).map Prod.fst := by
      rw [map_fst_stage1]
      intro hmem
      have := hperm.mem_iff.mp hmem
      revert this
      decide
    rw [alookup_eq_none_of_not_mem hnm]
    rfl
  exact ⟨hstage2 rv, (hstage2 rv).trans (hstage2 rvOther).symm, rfl, rfl, hbest, rfl, rfl⟩

/-- Witness for the amended C1 at a concrete all-error run. -/
theorem C1_witness :
    stage2_collect_rankings (fun _ => Except.ok "FINAL RANKING: B")
      (stage1_collect_responses
        [("Member_GPT", Except.error "quota"),
         ("Member_DeepSeek", Except.error "net"),
         ("Member_Mistral", Except.error "auth")]) = ⟨[], [], []⟩ :=
  (C1_amended
    [("Member_GPT", Except.error "quota"),
     ("Member_DeepSeek", Except.error "net"),
     ("Member_Mistral", Except.error "auth")]
    (fun _ => Except.ok "FINAL RANKING: B") (fun _ => Except.ok "other")
    (fun _ => Except.ok "chair") "q" (by decide)
    (by intro p hp; fin_cases hp <;> exact ⟨_, rfl⟩)).1

/-- Claim C5: in Stage-3 aggregation every Label-Map label's total is the
sum, over all rankings, of `max(0, 3 − i)` at each 0-indexed position `i`
where the label occurs in the parsed order (so positions from index 3 on
add zero and empty orders add nothing); on the documented example the
totals are A=5, B=5, C=2 and the winner is A or B. -/
theorem C5_scoring :
    (∀ (chair : String → Except String String) (query : String)
        (responses : List (String × String)) (rankings : List Ranking)
        (labelMap : List (String × String)) (l : String),
        l ∈ labelMap.map Prod.fst →
        alookup l (stage3_synthesize_final chair query responses rankings labelMap).scores
          = some (rankPoints (rankings.map Ranking.parsedOrder) l))
    ∧ (alookup "A" (stage3_synthesize_final (fun _ => Except.ok "") "q" []
          [⟨"R1", "", ["A", "B", "C"]⟩, ⟨"R2", "", ["B", "A", "C"]⟩]
          [("A", "m1"), ("B", "m2"), ("C", "m3")]).scores = some 5
       ∧ alookup "B" (stage3_synthesize_final (fun _ => Except.ok "") "q" []
          [⟨"R1", "", ["A", "B", "C"]⟩, ⟨"R2", "", ["B", "A", "C"]⟩]
          [("A", "m1"), ("B", "m2"), ("C", "m3")]).scores = some 5
       ∧ alookup "C" (stage3_synthesize_final (fun _ => Except.ok "") "q" []
          [⟨"R1", "", ["A", "B", "C"]⟩, ⟨"R2", "", ["B", "A", "C"]⟩]
          [("A", "m1"), ("B", "m2"), ("C", "m3")]).scores = some 2
       ∧ ((stage3_synthesize_final (fun _ => Except.ok "") "q" []
          [⟨"R1", "", ["A", "B", "C"]⟩, ⟨"R2", "", ["B", "A", "C"]⟩]
          [("A", "m1"), ("B", "m2"), ("C", "m3")]).winnerLabel = some "A"
         ∨ (stage3_synthesize_final (fun _ => Except.ok "") "q" []
          [⟨"R1", "", ["A", "B", "C"]⟩, ⟨"R2", "", ["B", "A", "C"]⟩]
          [("A", "m1"), ("B", "m2"), ("C", "m3")]).winnerLabel = some "B")) := by
  constructor
  · intro chair query responses rankings labelMap l hl
    show alookup l (computeScores (labelMap.map Prod.fst)
      (rankings.map Ranking.parsedOrder)) = _
    rw [alookup_computeScores]
    simp [hl]
  · exact ⟨by decide, by decide, by decide, Or.inl (by decide)⟩

/-- Witness for C5's general clause at the documented example. -/
theorem C5_witness :
    alookup "A" (stage3_synthesize_final (fun _ => Except.ok "") "q" []
        [⟨"R1", "", ["A", "B", "C"]⟩, ⟨"R2", "", ["B", "A", "C"]⟩]
        [("A", "m1"), ("B", "m2"), ("C", "m3")]).scores
      = some (rankPoints [["A", "B", "C"], ["B", "A", "C"]] "A") :=
  C5_scoring.1 (fun _ => Except.ok "") "q" []
    [⟨"R1", "", ["A", "B", "C"]⟩, ⟨"R2", "", ["B", "A", "C"]⟩]
    [("A", "m1"), ("B", "m2"), ("C", "m3")] "A" (by decide)

/-- Claim C10: when several labels tie for the maximal total, the winner
is the tied label occurring first in the Label Map's insertion order: any
Score-Table entry that is maximal and strictly beats every entry before
it is the selected winner.  Winner selection is a pure function of the
scores, hence deterministic in the responses, rankings and Label Map. -/
theorem C10_tie_goes_to_first (chair : String → Except String String)
    (query : String) (responses : List (String × String))
    (rankings : List Ranking) (labelMap : List (String × String))
    (pre suf : List (String × ℤ)) (p : String × ℤ)
    (hsc : (stage3_synthesize_final chair query responses rankings labelMap).scores
        = pre ++ p :: suf)
    (hpre : ∀ q ∈ pre, q.2 < p.2) (hsuf : ∀ q ∈ suf, q.2 ≤ p.2) :
    (stage3_synthesize_final chair query responses rankings labelMap).winnerLabel
      = some p.1 := by
  have h1 : (stage3_synthesize_final chair query responses rankings labelMap).winnerLabel
      = (pyMaxBy ((stage3_synthesize_final chair query responses rankings labelMap).scores)).map Prod.fst := rfl
  have hne : pre ++ p :: suf ≠ [] := by
    cases pre <;> simp
  rw [h1, hsc, pyMaxBy_eq_specFirstMax_ne hne, specFirstMax_first pre p suf hpre hsuf]
  rfl

/-- Witness for C10: A and B tie at 5; A is first in Label-Map order and
wins. -/
theorem C10_witness :
    (stage3_synthesize_final (fun _ => Except.ok "") "q" []
        [⟨"R1", "", ["A", "B"]⟩, ⟨"R2", "", ["B", "A"]⟩]
        [("A", "m1"), ("B", "m2"), ("C", "m3")]).winnerLabel = some "A" :=
  C10_tie_goes_to_first (fun _ => Except.ok "") "q" []
    [⟨"R1", "", ["A", "B"]⟩, ⟨"R2", "", ["B", "A"]⟩]
    [("A", "m1"), ("B", "m2"), ("C", "m3")]
    [] [("B", 5), ("C", 0)] ("A", 5) (by decide) (by decide) (by decide)

/-- Counterexample to claim C7: with two surviving drafts (Label Map
`A, B`) a reviewer text `"FINAL RANKING: A > C > B"` parses to
`["A","C","B"]`, which references the label `C` absent from the Label
Map: a Ranking's parsed order is not confined to the Label Map. -/
theorem C7_counterexample :
    ∃ r ∈ (stage2_collect_rankings (fun _ => Except.ok "FINAL RANKING: A > C > B")
        [("Member_DeepSeek", "draft one"), ("Member_GPT", "draft two"),
         ("Member_Mistral", "Error: boom")]).rankings,
      "C" ∈ r.parsedOrder
      ∧ "C" ∉ (stage2_collect_rankings (fun _ => Except.ok "FINAL RANKING: A > C > B")
          [("Member_DeepSeek", "draft one"), ("Member_GPT", "draft two"),
           ("Member_Mistral", "Error: boom")]).labelMap.map Prod.fst := by
  refine ⟨⟨"Member_DeepSeek", "FINAL RANKING: A > C > B", ["A", "C", "B"]⟩, by decide, by decide, by decide⟩

/-- Claim C7 as amended: a parsed order may mention labels outside the
Label Map, but aggregation ignores them — the Score Table's key list is
exactly the Label Map's key list, and the winner label, when one exists,
is a Label-Map key. -/
theorem C7_amended (chair : String → Except String String) (query : String)
    (responses : List (String × String)) (rankings : List Ranking)
    (labelMap : List (String × String)) :
    (stage3_synthesize_final chair query responses rankings labelMap).scores.map Prod.fst
      = labelMap.map Prod.fst
    ∧ (∀ l, (stage3_synthesize_final chair query responses rankings labelMap).winnerLabel
        = some l → l ∈ labelMap.map Prod.fst) := by
  constructor
  · exact map_fst_computeScores _ _
  · intro l hl
    have h1 : (stage3_synthesize_final chair query responses rankings labelMap).winnerLabel
        = (pyMaxBy (computeScores (labelMap.map Prod.fst)
            (rankings.map Ranking.parsedOrder))).map Prod.fst := rfl
    rw [h1] at hl
    rcases Option.map_eq_some'.mp hl with ⟨p, hp, hpl⟩
    have hm := pyMaxBy_mem hp
    have : p.1 ∈ (computeScores (labelMap.map Prod.fst)
        (rankings.map Ranking.parsedOrder)).map Prod.fst :=
      List.mem_map_of_mem Prod.fst hm
    rw [map_fst_computeScores] at this
    rw [← hpl]
    exact this

/-- Witness for the amended C7. -/
theorem C7_witness :
    "A" ∈ ([("A", "m1"), ("B", "m2")] : List (String × String)).map Prod.fst :=
  (C7_amended (fun _ => Except.ok "") "q" []
    [⟨"R1", "", ["A", "C", "B"]⟩] [("A", "m1"), ("B", "m2")]).2 "A" (by decide)

/-! ## Helpers for claim C2 -/

/-- Did the participant's generation call raise? -/
def isErrOutcome : Except String String → Bool
  | Except.ok _ => false
  | Except.error _ => true

/-- When exactly two responses survive the `"Error"` filter, the Label Map
pairs them with `A` and `B` in discovery order, and all three council
members are invited as reviewers. -/
theorem stage2_two_survivors (rv : String → Except String String)
    (responses : List (String × String)) (r1 r2 : String × String)
    (hfil : responses.filter (fun p => ! strContains p.2 "Error") = [r1, r2]) :
    (stage2_collect_rankings rv responses).labelMap = [("A", r1.1), ("B", r2.1)]
    ∧ (stage2_collect_rankings rv responses).reviewerCalls = councilNames := by
  rw [stage2_collect_rankings, hfil]
  exact ⟨rfl, rfl⟩

/-- On a two-entry Label Map the Stage-3 winner member is one of the two
stored participants, and the winning solution is that participant's
response. -/
theorem stage3_best_of_two (chair : String → Except String String)
    (query : String) (responses : List (String × String))
    (rankings : List Ranking) (n1 n2 v1 v2 : String)
    (hlk1 : alookup n1 responses = some v1)
    (hlk2 : alookup n2 responses = some v2) :
    ((stage3_synthesize_final chair query responses rankings [("A", n1), ("B", n2)]).winnerMember = n1
      ∧ (stage3_synthesize_final chair query responses rankings [("A", n1), ("B", n2)]).bestSolution = v1)
    ∨ ((stage3_synthesize_final chair query responses rankings [("A", n1), ("B", n2)]).winnerMember = n2
      ∧ (stage3_synthesize_final chair query responses rankings [("A", n1), ("B", n2)]).bestSolution = v2) := by
  rcases stage3_winner_of_ne_nil chair query responses rankings [("A", n1), ("B", n2)]
      (by simp) with ⟨l, m, hwl, hlmem, halk, hwm, hmval⟩
  have hbest : (stage3_synthesize_final chair query responses rankings
      [("A", n1), ("B", n2)]).bestSolution = (alookup m responses).getD "" := by
    show (alookup ((stage3_synthesize_final chair query responses rankings
      [("A", n1), ("B", n2)]).winnerMember) responses).getD "" = _
    rw [hwm]
  simp at hmval
  rcases hmval with hm1 | hm2
  · left
    subst hm1
    exact ⟨hwm, by rw [hbest, hlk1]; rfl⟩
  · right
    subst hm2
    exact ⟨hwm, by rw [hbest, hlk2]; rfl⟩

/-- Core of the amended C2, stated for any outcome list whose Stage-1
responses leave exactly the two drafts of `n1` and `n2` (in this order)
after the `"Error"` filter. -/
theorem C2_core (rv chair : String → Except String String) (query : String)
    (outs : List (String × Except String String)) (n1 n2 t1 t2 : String)
    (hfilresp : (stage1_collect_responses outs).filter (fun p => ! strContains p.2 "Error")
        = [(n1, process_calculations t1), (n2, process_calculations t2)])
    (hokfil : (outs.filter (fun p => ! isErrOutcome p.2)).map Prod.fst = [n1, n2])
    (hlk1 : alookup n1 (stage1_collect_responses outs) = some (process_calculations t1))
    (hlk2 : alookup n2 (stage1_collect_responses outs) = some (process_calculations t2))
    (hmem1 : (n1, Except.ok t1) ∈ outs) (hmem2 : (n2, Except.ok t2) ∈ outs)
    (hnerr : ∀ p ∈ outs, isErrOutcome p.2 = true → n1 ≠ p.1 ∧ n2 ≠ p.1) :
    (stage2_collect_rankings rv (stage1_collect_responses outs)).labelMap.length = 2
    ∧ (stage2_collect_rankings rv (stage1_collect_responses outs)).labelMap.map Prod.snd
        = (outs.filter (fun p => ! isErrOutcome p.2)).map Prod.fst
    ∧ (stage2_collect_rankings rv (stage1_collect_responses outs)).reviewerCalls = councilNames
    ∧ (∃ t, ((stage3_synthesize_final chair query (stage1_collect_responses outs)
          (stage2_collect_rankings rv (stage1_collect_responses outs)).rankings
          (stage2_collect_rankings rv (stage1_collect_responses outs)).labelMap).winnerMember,
          Except.ok t) ∈ outs
        ∧ (stage3_synthesize_final chair query (stage1_collect_responses outs)
            (stage2_collect_rankings rv (stage1_collect_responses outs)).rankings
            (stage2_collect_rankings rv (stage1_collect_responses outs)).labelMap).bestSolution
          = process_calculations t)
    ∧ (∀ p ∈ outs, isErrOutcome p.2 = true →
        (stage3_synthesize_final chair query (stage1_collect_responses outs)
            (stage2_collect_rankings rv (stage1_collect_responses outs)).rankings
            (stage2_collect_rankings rv (stage1_collect_responses outs)).labelMap).winnerMember
          ≠ p.1) := by
  rcases stage2_two_survivors rv (stage1_collect_responses outs)
      (n1, process_calculations t1) (n2, process_calculations t2) hfilresp with ⟨hlm, hrc⟩
  refine ⟨by rw [hlm]; rfl, by rw [hlm, hokfil]; rfl, hrc, ?_, ?_⟩
  · rw [hlm]
    rcases stage3_best_of_two chair query (stage1_collect_responses outs)
        (stage2_collect_rankings rv (stage1_collect_responses outs)).rankings
        n1 n2 (process_calculations t1) (process_calculations t2) hlk1 hlk2 with
      ⟨hw, hb⟩ | ⟨hw, hb⟩
    · exact ⟨t1, by rw [hw]; exact hmem1, hb⟩
    · exact ⟨t2, by rw [hw]; exact hmem2, hb⟩
  · intro p hp hpe
    rw [hlm]
    rcases stage3_best_of_two chair query (stage1_collect_responses outs)
        (stage2_collect_rankings rv (stage1_collect_responses outs)).rankings
        n1 n2 (process_calculations t1) (process_calculations t2) hlk1 hlk2 with
      ⟨hw, _⟩ | ⟨hw, _⟩
    · rw [hw]
      exact (hnerr p hp hpe).1
    · rw [hw]
      exact (hnerr p hp hpe).2

/-- Counterexample to claim C2 as stated: three participants, two calls
return normally and one raises, yet the Label Map has one entry, not two
— the survivor filter is the substring test `"Error" not in response`,
and a successful draft whose text contains `"Error"` is misclassified. -/
theorem C2_counterexample :
    (([("Member_DeepSeek",
         (Except.ok "Standard Error analysis shows the method is sound" : Except String String)),
       ("Member_GPT", Except.ok "fine answer"),
       ("Member_Mistral", Except.error "boom")].filter
        (fun p => isErrOutcome p.2)).length = 1)
    ∧ (stage2_collect_rankings (fun _ => Except.ok "FINAL RANKING: A > B")
        (stage1_collect_responses
          [("Member_DeepSeek",
             Except.ok "Standard Error analysis shows the method is sound"),
           ("Member_GPT", Except.ok "fine answer"),
           ("Member_Mistral", Except.error "boom")])).labelMap.length = 1 :=
  ⟨by decide, by decide⟩

/-- Claim C2 as amended: for a run of the three configured participants
in which exactly one Stage-1 call raises and the two surviving
post-processed drafts do not contain the substring `"Error"`, the Label
Map has exactly two entries, one per succeeding participant in discovery
order; Stage 2 invites all three participants as reviewers; and the
winning draft placed into the Stage-3 synthesis prompt is one of the two
surviving drafts, never the errored participant's. -/
theorem C2_amended (outcomes : List (String × Except String String))
    (rv chair : String → Except String String) (query : String)
    (hperm : List.Perm (outcomes.map Prod.fst) councilNames)
    (hcount : (outcomes.filter (fun p => isErrOutcome p.2)).length = 1)
    (hclean : ∀ p ∈ outcomes, ∀ t, p.2 = Except.ok t →
        strContains (process_calculations t) "Error" = false) :
    (stage2_collect_rankings rv (stage1_collect_responses outcomes)).labelMap.length = 2
    ∧ (stage2_collect_rankings rv (stage1_collect_responses outcomes)).labelMap.map Prod.snd
        = (outcomes.filter (fun p => ! isErrOutcome p.2)).map Prod.fst
    ∧ (stage2_collect_rankings rv (stage1_collect_responses outcomes)).reviewerCalls = councilNames
    ∧ (∃ t, ((stage3_synthesize_final chair query (stage1_collect_responses outcomes)
          (stage2_collect_rankings rv (stage1_collect_responses outcomes)).rankings
          (stage2_collect_rankings rv (stage1_collect_responses outcomes)).labelMap).winnerMember,
          Except.ok t) ∈ outcomes
        ∧ (stage3_synthesize_final chair query (stage1_collect_responses outcomes)
            (stage2_collect_rankings rv (stage1_collect_responses outcomes)).rankings
            (stage2_collect_rankings rv (stage1_collect_responses outcomes)).labelMap).bestSolution
          = process_calculations t)
    ∧ (∀ p ∈ outcomes, isErrOutcome p.2 = true →
        (stage3_synthesize_final chair query (stage1_collect_responses outcomes)
            (stage2_collect_rankings rv (stage1_collect_responses outcomes)).rankings
            (stage2_collect_rankings rv (stage1_collect_responses outcomes)).labelMap).winnerMember
          ≠ p.1) := by
  have hlen3 : outcomes.length = 3 := by
    have h := hperm.length_eq
    rwa [List.length_map] at h
  rcases List.length_eq_three.mp hlen3 with ⟨x, y, z, rfl⟩
  have hnd : (List.map Prod.fst [x, y, z]).Nodup := hperm.symm.nodup (by decide)
  obtain ⟨⟨hxy, hxz⟩, hyz⟩ : (x.1 ≠ y.1 ∧ x.1 ≠ z.1) ∧ y.1 ≠ z.1 := by
    simpa using hnd
  rcases x with ⟨x1, xo⟩
  rcases y with ⟨y1, yo⟩
  rcases z with ⟨z1, zo⟩
  simp only at hxy hxz hyz
  rcases xo with ex | tx <;> rcases yo with ey | ty <;> rcases zo with ez | tz <;>
    simp [isErrOutcome] at hcount
  -- remaining: exactly one raising participant, in each of the three slots
  · have hcy : strContains (process_calculations ty) "Error" = false :=
      hclean (y1, Except.ok ty) (by simp) ty rfl
    have hcz : strContains (process_calculations tz) "Error" = false :=
      hclean (z1, Except.ok tz) (by simp) tz rfl
    apply C2_core rv chair query _ y1 z1 ty tz
    · simp [stage1_collect_responses, stage1Entry, List.filter, errorEntry_contains, hcy, hcz]
    · simp [isErrOutcome]
    · simp [stage1_collect_responses, stage1Entry, alookup, hxy]
    · simp [stage1_collect_responses, stage1Entry, alookup, hxz, hyz]
    · simp
    · simp
    · intro p hp hpe
      simp at hp
      rcases hp with rfl | rfl | rfl
      · exact ⟨Ne.symm hxy, Ne.symm hxz⟩
      · simp [isErrOutcome] at hpe
      · simp [isErrOutcome] at hpe
  · have hcx : strContains (process_calculations tx) "Error" = false :=
      hclean (x1, Except.ok tx) (by simp) tx rfl
    have hcz : strContains (process_calculations tz) "Error" = false :=
      hclean (z1, Except.ok tz) (by simp) tz rfl
    apply C2_core rv chair query _ x1 z1 tx tz
    · simp [stage1_collect_responses, stage1Entry, List.filter, errorEntry_contains, hcx, hcz]
    · simp [isErrOutcome]
    · simp [stage1_collect_responses, stage1Entry, alookup]
    · simp [stage1_collect_responses, stage1Entry, alookup, hxz, hyz]
    · simp
    · simp
    · intro p hp hpe
      simp at hp
      rcases hp with rfl | rfl | rfl
      · simp [isErrOutcome] at hpe
      · exact ⟨hxy, Ne.symm hyz⟩
      · simp [isErrOutcome] at hpe
  · have hcx : strContains (process_calculations tx) "Error" = false :=
      hclean (x1, Except.ok tx) (by simp) tx rfl
    have hcy : strContains (process_calculations ty) "Error" = false :=
      hclean (y1, Except.ok ty) (by simp) ty rfl
    apply C2_core rv chair query _ x1 y1 tx ty
    · simp [stage1_collect_responses, stage1Entry, List.filter, errorEntry_contains, hcx, hcy]
    · simp [isErrOutcome]
    · simp [stage1_collect_responses, stage1Entry, alookup]
    · simp [stage1_collect_responses, stage1Entry, alookup, hxy]
    · simp
    · simp
    · intro p hp hpe
      simp at hp
      rcases hp with rfl | rfl | rfl
      · simp [isErrOutcome] at hpe
      · simp [isErrOutcome] at hpe
      · exact ⟨hxz, hyz⟩

/-- Witness for the amended C2 at a concrete 2-ok/1-raise run. -/
theorem C2_witness :
    (stage2_collect_rankings (fun _ => Except.ok "FINAL RANKING: A > B")
      (stage1_collect_responses
        [("Member_DeepSeek", Except.ok "alpha draft"),
         ("Member_GPT", Except.error "quota"),
         ("Member_Mistral", Except.ok "gamma draft")])).labelMap.length = 2 :=
  (C2_amended
    [("Member_DeepSeek", Except.ok "alpha draft"),
     ("Member_GPT", Except.error "quota"),
     ("Member_Mistral", Except.ok "gamma draft")]
    (fun _ => Except.ok "FINAL RANKING: A > B") (fun _ => Except.ok "chair") "q"
    (by decide) (by decide)
    (by
      intro p hp t ht
      fin_cases hp
      · injection ht with h
        subst h
        decide
      · exact absurd ht (by simp)
      · injection ht with h
        subst h
        decide)).1

end GeoTutor
